import Mathlib

/-!
Shallow embedding of the LLMAnalyst research pipeline
(src/LLMAgent/research.py, src/LLMAgent/write.py, src/LLMAgent/ask.py).

Python dicts keyed by strings are modelled as association lists
(`List (String × _)`) preserving insertion order, matching CPython's
ordered dicts.  LLM calls, logging and file I/O are side effects that do
not touch the state tracked here; the oracle's textual replies are taken
as parameters, and the prompt strings (which are only sent to the
oracle) are elided.  Fallible Python code is modelled with `Except`.
-/

/-- Python whitespace characters recognised by `str.strip()`. -/
def isPyWs (c : Char) : Bool :=
  c = ' ' || c = '\t' || c = '\n' || c = '\x0d' || c = '\x0b' || c = '\x0c'

/-- Model of Python `str.strip()` on the character list. -/
def pyStripList (l : List Char) : List Char :=
  ((l.dropWhile isPyWs).reverse.dropWhile isPyWs).reverse

/-- Model of Python `str.strip()`. -/
def pyStrip (s : String) : String :=
  String.mk (pyStripList s.data)

/-- Model of Python `str.lower()` (ASCII letters suffice for this code). -/
def pyLower (s : String) : String :=
  String.mk (s.data.map Char.toLower)

/-! ## Axiom registry (research.py, iterative_refinement) -/

/-- An axiom as handed to `iterative_refinement`: the Python dicts built in
`iterative_research` have keys "id" and "text" and may lack "iter_count". -/
structure AxiomIn where
  id : String
  text : String
  iter_count : Option Nat := none
  deriving Repr, DecidableEq

/-- An axiom once `iterative_refinement` has ensured the iteration count
(research.py lines 262-264): keys "id", "text", "iter_count". -/
structure Axiom where
  id : String
  text : String
  iter_count : Nat
  deriving Repr, DecidableEq

/-- One entry of the parsed refinement reply (`parse_refinement_response`
output): a dict with keys "id" and "text". -/
structure Refined where
  id : String
  text : String
  deriving Repr, DecidableEq

/-- research.py lines 262-264: `if 'iter_count' not in axiom:
axiom['iter_count'] = 0`. -/
def ensureIterCount (axioms : List AxiomIn) : List Axiom :=
  axioms.map (fun a => ⟨a.id, a.text, a.iter_count.getD 0⟩)

/-- research.py lines 272-277: look up the original axiom with the same id
(`next((a for a in axioms if a['id'] == refined['id']), None)`); if found,
the refined entry gets `iter_count = orig iter_count + 1`, otherwise 1. -/
def applyRefinement (axioms : List Axiom) (r : Refined) : Axiom :=
  match axioms.find? (fun a => a.id == r.id) with
  | some orig => ⟨r.id, r.text, orig.iter_count + 1⟩
  | none => ⟨r.id, r.text, 1⟩

/-- research.py lines 269-283: starting from `new_axioms = []`, every entry
of the parsed reply is given its iteration count and appended to
`new_axioms` exactly when `iter_count < removal_threshold`. -/
def refinementRound (axioms : List Axiom) (refined_axioms : List Refined)
    (removal_threshold : Nat) : List Axiom :=
  refined_axioms.foldl
    (fun new_axioms r =>
      if (applyRefinement axioms r).iter_count < removal_threshold then
        new_axioms ++ [applyRefinement axioms r]
      else new_axioms)
    []

/-- The registry as it stands after the count update of a round, before the
retirement filter: every refined entry with its new count. -/
def updateCounts (axioms : List Axiom) (refined_axioms : List Refined) :
    List Axiom :=
  refined_axioms.map (applyRefinement axioms)

/-- The retirement step viewed on a counted registry: keep the axioms with
`iter_count < threshold`, return the removed ones as the second component
(research.py lines 278-283). -/
def retire_if_due (axioms : List Axiom) (threshold : Nat) :
    List Axiom × List Axiom :=
  (axioms.filter (fun a => a.iter_count < threshold),
   axioms.filter (fun a => ¬ a.iter_count < threshold))

/-- research.py lines 266-287: the `for iteration in range(max_iterations)`
loop.  `oracle n axs` stands for the parsed reply of
`refine_axioms` in round `n` (the LLM call is the oracle parameter).
Returns the final axiom list together with the number of rounds
executed; the loop breaks as soon as the registry becomes empty. -/
def refineLoop (oracle : Nat → List Axiom → List Refined)
    (removal_threshold : Nat) :
    Nat → List Axiom → Nat → List Axiom × Nat
  | 0, axioms, _ => (axioms, 0)
  | fuel + 1, axioms, n =>
    let axioms' := refinementRound axioms (oracle n axioms) removal_threshold
    if axioms' = [] then (axioms', 1)
    else
      let rest := refineLoop oracle removal_threshold fuel axioms' (n + 1)
      (rest.1, rest.2 + 1)

/-- research.py lines 243-288: `iterative_refinement` with the LLM calls
abstracted as `oracle`.  Result: final axioms and rounds executed. -/
def iterative_refinement (oracle : Nat → List Axiom → List Refined)
    (axioms : List AxiomIn) (max_iterations : Nat := 3)
    (removal_threshold : Nat := 3) : List Axiom × Nat :=
  refineLoop oracle removal_threshold max_iterations (ensureIterCount axioms) 0

/-! ## Python dicts as insertion-ordered association lists -/

/-- A Python dict key as used at research.py line 95: either a string, or
the builtin function `id` (which that line erroneously uses as a key). -/
inductive PyKey where
  | str (s : String)
  | builtinFunctionId
  deriving Repr, DecidableEq

/-- Python exceptions raised by the modelled code. -/
inductive PyError where
  | keyError (key : PyKey)
  | nameError (name : String)
  | attributeError (msg : String)
  deriving Repr, DecidableEq

/-- Model of `d[k] = v` on a Python dict: replace in place if the key exists,
append at the end otherwise (CPython dicts preserve insertion order). -/
def dictSet {α : Type} : List (String × α) → String → α → List (String × α)
  | [], k, v => [(k, v)]
  | p :: rest, k, v => if p.1 == k then (k, v) :: rest else p :: dictSet rest k v

/-- Model of `k in d` / `d.get(k)` on a Python dict. -/
def dictGet? {α : Type} : List (String × α) → String → Option α
  | [], _ => none
  | p :: rest, k => if p.1 == k then some p.2 else dictGet? rest k

/-- Model of `d.get(k, default)`. -/
def dictGetD {α : Type} (d : List (String × α)) (k : String) (v₀ : α) : α :=
  (dictGet? d k).getD v₀

/-- The keys of a Python dict, in insertion order. -/
def dictKeys {α : Type} (d : List (String × α)) : List String :=
  d.map (fun p => p.1)

/-! ## Model of xml.etree.ElementTree

`ET.fromstring` parses a whole string as a single XML document and raises
`ParseError` otherwise; the callers in this repository catch the error.
The model returns `none` where Python raises.  An element carries its
tag, attributes, the text before its first child (`.text`, `none` when
empty, as ElementTree yields `None`), and its children.  Comments,
CDATA, entity references and the `<?xml?>` prolog are not modelled; no
reply modelled in this development uses them. -/

inductive Elem where
  | mk (tag : String) (attrs : List (String × String)) (text : Option String)
      (children : List Elem)

def Elem.tag : Elem → String
  | .mk t _ _ _ => t

def Elem.attrs : Elem → List (String × String)
  | .mk _ a _ _ => a

def Elem.text : Elem → Option String
  | .mk _ _ x _ => x

def Elem.children : Elem → List Elem
  | .mk _ _ _ c => c

/-- Model of `elem.get(key, default)` on the attribute dict. -/
def Elem.get (e : Elem) (k : String) (d : String) : String :=
  match e.attrs.find? (fun p => p.1 == k) with
  | some p => p.2
  | none => d

/-- Model of `elem.get(key)` with no default (`None` when absent). -/
def Elem.getOpt (e : Elem) (k : String) : Option String :=
  (e.attrs.find? (fun p => p.1 == k)).map (fun p => p.2)

/-- Model of `elem.find(tag)`: first direct child with the given tag. -/
def Elem.find (e : Elem) (tag : String) : Option Elem :=
  e.children.find? (fun c => c.tag == tag)

/-- Model of `elem.findall(tag)`: all direct children with the given tag. -/
def Elem.findall (e : Elem) (tag : String) : List Elem :=
  e.children.filter (fun c => c.tag == tag)

/-- Model of `root.findall(".//tag")`: the elements of `l` and all their
descendants that carry the tag, in document order.  The fuel only makes
the recursion structural; callers pass a bound derived from the reply's
length, which exceeds the node count of any tree parsed from it. -/
def findallDescAux (tag : String) : Nat → List Elem → List Elem
  | 0, _ => []
  | _, [] => []
  | fuel + 1, e :: rest =>
    (if e.tag == tag then [e] else [])
      ++ findallDescAux tag fuel e.children ++ findallDescAux tag fuel rest

/-- XML whitespace. -/
def isXmlWs (c : Char) : Bool :=
  c = ' ' || c = '\t' || c = '\n' || c = '\x0d'

/-- Characters allowed in an XML name by this model. -/
def xmlNameChar (c : Char) : Bool :=
  c.isAlphanum || c = '_' || c = '-' || c = '.' || c = ':'

/-- Parse the attribute list of a start tag, stopping in front of `>` or
`/>`.  Fuel bounds the recursion; each step consumes input. -/
def parseAttrs : Nat → List Char → Option (List (String × String) × List Char)
  | 0, _ => none
  | fuel + 1, l =>
    let l' := l.dropWhile isXmlWs
    match l' with
    | [] => none
    | '>' :: _ => some ([], l')
    | '/' :: _ => some ([], l')
    | _ =>
      let nm := l'.takeWhile xmlNameChar
      let r₁ := l'.dropWhile xmlNameChar
      if nm = [] then none else
      match r₁ with
      | '=' :: q :: r₂ =>
        if q = '\'' || q = '"' then
          let v := r₂.takeWhile (fun c => c ≠ q)
          match r₂.dropWhile (fun c => c ≠ q) with
          | _ :: r₃ =>
            match parseAttrs fuel r₃ with
            | some (attrs, rest) => some ((String.mk nm, String.mk v) :: attrs, rest)
            | none => none
          | [] => none
        else none
      | _ => none

/-- The element and children-list parsers at a given fuel level;
bundling them makes the recursion on the fuel structural (and hence
kernel-reducible), avoiding a mutual block. -/
structure XmlP where
  pElem : List Char → Option (Elem × List Char)
  pChildren : String → List Char → Option (List Elem × List Char)

/-- Recursive XML parser: `pElem` parses one element starting at `<`
(start tag, the text before the first child, the children, the matching
close tag); `pChildren` parses the children of an open element up to the
close tag, skipping the text between children (ElementTree tails, which
no caller reads). -/
def xmlP : Nat → XmlP
  | 0 => ⟨fun _ => none, fun _ _ => none⟩
  | fuel + 1 =>
    { pElem := fun l =>
        match l with
        | '<' :: rest =>
          let nm := rest.takeWhile xmlNameChar
          let r₁ := rest.dropWhile xmlNameChar
          if nm = [] then none else
          match parseAttrs (r₁.length + 1) r₁ with
          | none => none
          | some (attrs, r₂) =>
            match r₂ with
            | '/' :: '>' :: r₃ => some (Elem.mk (String.mk nm) attrs none [], r₃)
            | '>' :: r₃ =>
              let txt := r₃.takeWhile (fun c => c ≠ '<')
              let rest' := r₃.dropWhile (fun c => c ≠ '<')
              match (xmlP fuel).pChildren (String.mk nm) rest' with
              | none => none
              | some (cs, rest'') =>
                some (Elem.mk (String.mk nm) attrs
                  (if txt = [] then none else some (String.mk txt)) cs, rest'')
            | _ => none
        | _ => none
      pChildren := fun tag l =>
        match l with
        | '<' :: '/' :: rest =>
          let nm := rest.takeWhile xmlNameChar
          let r₁ := (rest.dropWhile xmlNameChar).dropWhile isXmlWs
          match r₁ with
          | '>' :: r₂ => if String.mk nm = tag then some ([], r₂) else none
          | _ => none
        | '<' :: _ =>
          match (xmlP fuel).pElem l with
          | none => none
          | some (c, rest) =>
            let rest₂ := rest.dropWhile (fun ch => ch ≠ '<')
            match (xmlP fuel).pChildren tag rest₂ with
            | none => none
            | some (cs, rest₃) => some (c :: cs, rest₃)
        | _ => none }

/-- Model of `xml.etree.ElementTree.fromstring`: the whole input must be
a single well-formed document, save leading and trailing whitespace;
`none` models a raised `ParseError`. -/
def fromstring (s : String) : Option Elem :=
  let l := s.data.dropWhile isXmlWs
  match (xmlP (2 * l.length + 4)).pElem l with
  | none => none
  | some (e, rest) => if rest.dropWhile isXmlWs = [] then some e else none

/-- Helper shared by the parsers: Python
`x.text.strip() if x is not None and x.text else ""`. -/
def optTextStrip (e : Option Elem) : String :=
  match e with
  | some el =>
    match el.text with
    | some t => pyStrip t
    | none => ""
  | none => ""

/-! ## parse_research_response (research.py lines 32-68) -/

/-- One entry of the list returned by `parse_research_response`: a dict
with keys "axiom_key", "section", "summary" and "axiom".  The field
`sectionName` models the "section" key and `axiomText` the "axiom"
key. -/
structure Summary where
  axiom_key : String
  sectionName : String
  summary : String
  axiomText : String
  deriving Repr, DecidableEq

/-- research.py lines 32-68: parse the whole reply with `ET.fromstring`
(the `ParseError` is caught at line 66 and `[]` returned), then walk
`root.findall(".//summary")`. -/
def parse_research_response (response_xml : String) : List Summary :=
  match fromstring response_xml with
  | none => []
  | some root =>
    (findallDescAux "summary" (2 * response_xml.length + 4) root.children).map
      (fun se =>
      { axiom_key := optTextStrip (se.find "axiom_key")
        sectionName := optTextStrip (se.find "section_ref")
        summary := optTextStrip (se.find "text")
        axiomText := optTextStrip (se.find "axiom") })

/-! ## parse_refinement_response (research.py lines 210-241) -/

/-- research.py lines 210-241: parse the whole reply with `ET.fromstring`
(errors caught, `[]` returned), then for every `group` descendant and
every direct `axiom` child build an entry; an empty refined text falls
back to the `original` attribute. -/
def parse_refinement_response (response_xml : String) : List Refined :=
  match fromstring response_xml with
  | none => []
  | some root =>
    (findallDescAux "group" (2 * response_xml.length + 4) root.children).foldl
      (fun acc group =>
        acc ++ (group.findall "axiom").map (fun ax =>
          let key := pyStrip (ax.get "key" "")
          let original := pyStrip (ax.get "original" "")
          let refined_text :=
            match ax.text with
            | some t => pyStrip t
            | none => ""
          let final_text := if refined_text ≠ "" then refined_text else original
          (⟨key, final_text⟩ : Refined)))
      []

/-! ## parse_write_response (write.py lines 5-55) -/

/-- The value stored in the deep-dive dict of `parse_write_response`:
keys "axiom_key" and "text". -/
structure DeepDive where
  axiom_key : String
  text : String
  deriving Repr, DecidableEq

/-- write.py lines 5-55.  The whole reply goes through `ET.fromstring`;
on `ParseError` the empty defaults are returned (caught at line 53).
A `done` element whose text is `None` makes line 51 raise
`AttributeError`, which the same handler catches after `updated_skeleton`
and `deep_dive` are already built, so the returned triple then carries
the built dicts with `done = False`; the model returns that same triple
directly. -/
def parse_write_response (response_xml : String) :
    List (String × String) × List (String × DeepDive) × Bool :=
  match fromstring response_xml with
  | none => ([], [], false)
  | some root =>
    let updated_skeleton :=
      match root.find "updated_skeleton" with
      | none => []
      | some node =>
        (node.findall "section").foldl
          (fun d se =>
            dictSet d (pyStrip (se.get "name" ""))
              (match se.text with
               | some t => pyStrip t
               | none => ""))
          []
    let deep_dive :=
      (root.findall "deep_dive").foldl
        (fun d dd =>
          let axiom_key :=
            match dd.getOpt "axiom_key" with
            | some v => if v ≠ "" then pyStrip v else ""
            | none => ""
          let dd_text :=
            match dd.text with
            | some t => pyStrip t
            | none => ""
          dictSet d (pyStrip (dd.get "section" "")) (⟨axiom_key, dd_text⟩ : DeepDive))
        []
    let done :=
      match root.find "done" with
      | none => false
      | some de =>
        match de.text with
        | none => false
        | some t => pyLower (pyStrip t) == "true"
    (updated_skeleton, deep_dive, done)

/-! ## parse_llm_response (ask.py lines 73-102)

This parser first runs `re.search(r'<(\w+)[^>]*>.*?</\1>', reply,
re.DOTALL)` to extract the first tagged block.  When the regex does not
match, or `ET.fromstring` on the matched block fails, the function
prints a message and then falls through to line 93 where the local
variable `root` was never assigned: Python raises `NameError`, which
propagates to the caller.  A `done` element with `None` text likewise
raises `AttributeError` at line 100. -/

/-- Characters matched by the regex class `\w` (ASCII range). -/
def isWordChar (c : Char) : Bool :=
  c.isAlphanum || c = '_'

/-- Index of the first occurrence of `pat` in `l`, if any. -/
def firstOcc (pat : List Char) : List Char → Option Nat
  | [] => if pat = [] then some 0 else none
  | c :: rest =>
    if pat.isPrefixOf (c :: rest) then some 0
    else (firstOcc pat rest).map (fun n => n + 1)

/-- Backtracking over the group `(\w+)`: with `w` the maximal word-char
run after `<`, try the name `w.take k` for `k = w.length, …, 1`; for
each candidate, the lazy `.*?</\1>` matches up to the first occurrence
of the close tag in `after`.  Returns the matched tail after the first
`>`. -/
def tryNames (w after : List Char) : Nat → Option (List Char)
  | 0 => none
  | k + 1 =>
    let nm := w.take (k + 1)
    let close := '<' :: '/' :: (nm ++ ['>'])
    match firstOcc close after with
    | some p => some (after.take (p + close.length))
    | none => tryNames w after k

/-- Attempt the regex match at one position whose character `<` has just
been consumed; `rest` is the input after that `<`. -/
def tryTaggedAt (rest : List Char) : Option (List Char) :=
  let w := rest.takeWhile isWordChar
  if w = [] then none else
  match rest.dropWhile (fun c => c ≠ '>') with
  | '>' :: after =>
    let pre := rest.takeWhile (fun c => c ≠ '>')
    match tryNames w after w.length with
    | some tail => some ('<' :: pre ++ '>' :: tail)
    | none => none
  | _ => none

/-- Scan for the leftmost match of `<(\w+)[^>]*>.*?</\1>`. -/
def reSearchTagged : List Char → Option (List Char)
  | [] => none
  | c :: rest =>
    (if c = '<' then tryTaggedAt rest else none) <|> reSearchTagged rest

/-- Model of the `re.search` call at ask.py line 79: the first tagged
block of the reply, if any. -/
def findTaggedBlock (s : String) : Option String :=
  (reSearchTagged s.data).map String.mk

/-- ask.py lines 73-102.  `Except.error` models an exception escaping to
the caller (NameError for the unbound `root`, AttributeError for
`None.strip()`). -/
def parse_llm_response (response_xml : String) :
    Except PyError (List String × Bool) :=
  match findTaggedBlock response_xml with
  | none => Except.error (PyError.nameError "root")
  | some first_element_str =>
    match fromstring first_element_str with
    | none => Except.error (PyError.nameError "root")
    | some root =>
      let questions :=
        match root.find "questions" with
        | none => []
        | some qn =>
          (qn.findall "question").foldl
            (fun acc q =>
              match q.text with
              | some t => acc ++ [pyStrip t]
              | none => acc)
            []
      match root.find "done" with
      | none => Except.ok (questions, false)
      | some dn =>
        match dn.text with
        | none => Except.error (PyError.attributeError "strip on None")
        | some t => Except.ok (questions, pyLower (pyStrip t) == "true")

/-! ## Evidence store and the iterative_research stage
(research.py lines 71-158) -/

/-- An evidence record as built at research.py lines 150-154: a dict
with keys "pdf", "section" and "summary".  `sectionName` models the
"section" key. -/
structure Evidence where
  pdf : String
  sectionName : String
  summary : String
  deriving Repr, DecidableEq

/-- The evidence mapping: axiom id → ordered list of evidence records. -/
abbrev EvidenceMap := List (String × List Evidence)

/-- research.py lines 141-142 and 150-154: ensure the key is present
(`evidence_mapping[axiom_key] = []` when absent) and append one record
to its list.  The axiom-list update between those lines does not touch
the mapping, so the two dict operations compose into this one. -/
def recordEv (m : EvidenceMap) (k : String) (ev : Evidence) : EvidenceMap :=
  let m' := if (dictGet? m k).isSome then m else m ++ [(k, [])]
  dictSet m' k (dictGetD m' k [] ++ [ev])

/-- The mutable state of `iterative_research`: the `initial_axioms`
list, the `evidence_mapping` dict, and the index of the next fresh
uuid to draw from the uuid supply. -/
structure ResearchState where
  initial_axioms : List AxiomIn
  evidence_mapping : EvidenceMap
  nextUuid : Nat
  deriving Repr, DecidableEq

/-- research.py lines 137-154, the body of `for s in summaries`.
`uuids` supplies the values of `str(uuid.uuid4())`.  Details matched to
the source: the guard is the truthiness of `axiom_key` (line 140); line
146 reads `a["text"] == axiom`, an equality test whose result is
discarded, so a matching axiom's text is never changed; a new axiom is
appended only when no existing id matches (lines 148-149), under a fresh
uuid, not under `axiom_key`; the parser always puts a "section" key in
`s`, so `s.get("section", section_title)` is `s`'s own section field
and the `section_title` default never fires. -/
def processSummary (uuids : Nat → String) (pdf_file section_title : String)
    (st : ResearchState) (s : Summary) : ResearchState :=
  if s.axiom_key ≠ "" then
    let foundAxiom := st.initial_axioms.any (fun a => a.id == s.axiom_key)
    let axs :=
      if foundAxiom then st.initial_axioms
      else st.initial_axioms ++ [(⟨uuids st.nextUuid, s.axiomText, none⟩ : AxiomIn)]
    let nu := if foundAxiom then st.nextUuid else st.nextUuid + 1
    let m := recordEv st.evidence_mapping s.axiom_key
        ⟨pdf_file, s.sectionName, s.summary⟩
    ⟨axs, m, nu⟩
  else st

/-- research.py line 95: the dict comprehension
`{axiom[id]: [] for axiom in initial_axioms}` — the subscript key is the
*builtin function* `id`, not the string "id". -/
def axiomDict (a : AxiomIn) : List (PyKey × String) :=
  [(PyKey.str "id", a.id), (PyKey.str "text", a.text)]

/-- Model of Python `d[k]` on an axiom dict: raises `KeyError` when the
key is absent. -/
def pyDictGet (d : List (PyKey × String)) (k : PyKey) : Except PyError String :=
  match d.find? (fun p => p.1 == k) with
  | some p => Except.ok p.2
  | none => Except.error (PyError.keyError k)

/-- research.py line 95 evaluated left to right: each axiom dict is
subscripted with the builtin function `id`. -/
def initEvidenceMappingFrom : EvidenceMap → List AxiomIn →
    Except PyError EvidenceMap
  | m, [] => Except.ok m
  | m, a :: rest =>
    match pyDictGet (axiomDict a) PyKey.builtinFunctionId with
    | Except.error e => Except.error e
    | Except.ok k => initEvidenceMappingFrom (dictSet m k []) rest

/-- The initial evidence mapping of research.py line 95. -/
def initEvidenceMapping (axioms : List AxiomIn) : Except PyError EvidenceMap :=
  initEvidenceMappingFrom [] axioms

/-- One section of a PDF as returned by `read_pdf_sections`. -/
structure PdfSection where
  title : String
  text : String
  deriving Repr, DecidableEq

/-- research.py lines 71-158: `iterative_research` with the document
collaborator and the LLM abstracted: `pdfs` gives each file's sections,
`researchOracle n` the reply to the n-th per-section research call, and
`refineOracle` the parsed replies of the refinement rounds.  The
question and the section text only feed the prompts and so only the
oracle.  The final call is `iterative_refinement(initial_axioms,
evidence_mapping, 3, 2)` (line 157). -/
def iterative_research (axiomTexts : List String)
    (pdfs : List (String × List PdfSection))
    (researchOracle : Nat → String)
    (refineOracle : Nat → List Axiom → List Refined)
    (uuids : Nat → String) :
    Except PyError (List Axiom × EvidenceMap) :=
  let initial_axioms :=
    axiomTexts.enum.map (fun p => (⟨uuids p.1, p.2, none⟩ : AxiomIn))
  match initEvidenceMapping initial_axioms with
  | Except.error e => Except.error e
  | Except.ok m =>
    let st₀ : ResearchState := ⟨initial_axioms, m, axiomTexts.length⟩
    let res := pdfs.foldl
      (fun (acc : ResearchState × Nat) pdf =>
        pdf.2.foldl
          (fun (acc : ResearchState × Nat) sec =>
            let summaries := parse_research_response (researchOracle acc.2)
            (summaries.foldl (processSummary uuids pdf.1 sec.title) acc.1,
             acc.2 + 1))
          acc)
      (st₀, 0)
    let refined := iterative_refinement refineOracle res.1.initial_axioms 3 2
    Except.ok (refined.1, res.1.evidence_mapping)

/-! ## write_paper (write.py lines 57-206) -/

/-- write.py lines 82-89: the initial skeleton. -/
def initial_skeleton : List (String × String) :=
  [("Abstract", "Placeholder abstract."),
   ("Introduction", "Placeholder introduction."),
   ("Methods", "Placeholder methods."),
   ("Results", "Placeholder results."),
   ("Discussion", "Placeholder discussion."),
   ("Conclusion", "Placeholder conclusion.")]

/-- write.py lines 182-190: one evidence line of a deep dive. -/
def ddLine (k : String) (ev : Evidence) : String :=
  "Axiom " ++ k ++ ": From " ++ ev.pdf ++ " (Section: " ++ ev.sectionName
    ++ "): " ++ ev.summary ++ "\n"

/-- write.py lines 179-190: gather the evidence text for a deep dive on
section `sec`, filtered case-insensitively; when `requested` is empty,
all keys of the mapping contribute. -/
def evidenceForDD (em : EvidenceMap) (sec : String) (requested : String) :
    String :=
  if requested ≠ "" then
    ((dictGetD em requested []).filter
        (fun ev => pyLower ev.sectionName == pyLower sec)).foldl
      (fun acc ev => acc ++ ddLine requested ev) ""
  else
    em.foldl
      (fun acc p =>
        acc ++ (p.2.filter
            (fun ev => pyLower ev.sectionName == pyLower sec)).foldl
          (fun a ev => a ++ ddLine p.1 ev) "")
      ""

/-- write.py lines 174-194: process the deep-dive dict in order.  Line
194 reads `skeleton[sec] += …`, which raises `KeyError` when `sec` is
not a key of the current skeleton.  Returns the updated skeleton and the
accumulated `deep_dive_evidence` (which only feeds the next prompt). -/
def applyDeepDives (em : EvidenceMap) :
    List (String × DeepDive) → List (String × String) → String →
    Except PyError (List (String × String) × String)
  | [], sk, acc => Except.ok (sk, acc)
  | (sec, info) :: rest, sk, acc =>
    let e4dd := evidenceForDD em sec info.axiom_key
    let acc' := acc ++ "Deep Dive Request for Section " ++ sec ++ ": "
      ++ info.text ++ "\nEvidence:\n" ++ e4dd ++ "\n\n"
    match dictGet? sk sec with
    | none => Except.error (PyError.keyError (PyKey.str sec))
    | some cur =>
      applyDeepDives em rest
        (dictSet sk sec
          (cur ++ "\n\nDeep Dive Details:\n" ++ info.text ++ "\nEvidence:\n"
            ++ e4dd))
        acc'

/-- write.py lines 106-199, one round: parse the reply, merge the
updated sections into the skeleton in place (line 169-170: dict
assignment, so an unknown section name is *added*), then handle the
deep-dive requests.  Returns skeleton, deep-dive evidence and the done
flag. -/
def writeRound (em : EvidenceMap) (skeleton : List (String × String))
    (reply : String) :
    Except PyError (List (String × String) × String × Bool) :=
  let parsed := parse_write_response reply
  let skeleton' := parsed.1.foldl (fun sk p => dictSet sk p.1 p.2) skeleton
  match applyDeepDives em parsed.2.1 skeleton' "" with
  | Except.error e => Except.error e
  | Except.ok (sk, ddEv) => Except.ok (sk, ddEv, parsed.2.2)

/-- write.py lines 106-199: `while not done and iteration <
max_iterations`.  `replies n` is the oracle reply of round `n`.
Returns the final skeleton and the number of rounds executed. -/
def writeLoop (em : EvidenceMap) (replies : Nat → String) :
    Nat → List (String × String) → Nat →
    Except PyError (List (String × String) × Nat)
  | 0, sk, _ => Except.ok (sk, 0)
  | fuel + 1, sk, n =>
    match writeRound em sk (replies n) with
    | Except.error e => Except.error e
    | Except.ok (sk', _, done) =>
      if done then Except.ok (sk', 1)
      else
        match writeLoop em replies fuel sk' (n + 1) with
        | Except.error e => Except.error e
        | Except.ok (sk'', m) => Except.ok (sk'', m + 1)

/-- write.py lines 201-204: compose the final paper from the skeleton. -/
def composePaper (sk : List (String × String)) : String :=
  sk.foldl
    (fun acc p =>
      acc ++ p.1 ++ "\n" ++ String.mk (List.replicate p.1.length '-') ++ "\n"
        ++ p.2 ++ "\n\n")
    ""

/-- write.py lines 57-206: `write_paper` with the LLM abstracted as the
reply stream; returns the paper and the number of rounds executed. -/
def write_paper (em : EvidenceMap) (replies : Nat → String)
    (max_iterations : Nat := 5) : Except PyError (String × Nat) :=
  match writeLoop em replies max_iterations initial_skeleton 0 with
  | Except.error e => Except.error e
  | Except.ok (sk, n) => Except.ok (composePaper sk, n)

/-! ### Basic lemmas about the refinement round -/

theorem refinementRound_foldl_acc (axioms : List Axiom) (t : Nat) :
    ∀ (rs : List Refined) (acc : List Axiom),
      rs.foldl
        (fun new_axioms r =>
          if (applyRefinement axioms r).iter_count < t then
            new_axioms ++ [applyRefinement axioms r]
          else new_axioms) acc
      = acc ++ (updateCounts axioms rs).filter (fun a => a.iter_count < t)
  | [], acc => by simp [updateCounts]
  | r :: rs, acc => by
    by_cases h : (applyRefinement axioms r).iter_count < t
    · simp only [List.foldl_cons, if_pos h]
      rw [refinementRound_foldl_acc axioms t rs (acc ++ [applyRefinement axioms r])]
      simp [updateCounts, List.filter_cons, h]
    · simp only [List.foldl_cons, if_neg h]
      rw [refinementRound_foldl_acc axioms t rs acc]
      simp [updateCounts, List.filter_cons, h]

/-- A round is the counted registry filtered by the retirement threshold. -/
theorem refinementRound_eq_filter (axioms : List Axiom) (rs : List Refined)
    (t : Nat) :
    refinementRound axioms rs t
      = (updateCounts axioms rs).filter (fun a => a.iter_count < t) := by
  have h := refinementRound_foldl_acc axioms t rs []
  simpa [refinementRound] using h

/-! ### Association-list (Python dict) lemmas -/

theorem dictGet?_set_self {α : Type} (d : List (String × α)) (k : String)
    (v : α) : dictGet? (dictSet d k v) k = some v := by
  induction d with
  | nil => simp [dictSet, dictGet?]
  | cons p rest ih =>
    by_cases h : p.1 = k
    · simp [dictSet, dictGet?, h]
    · simp only [dictSet, dictGet?, beq_iff_eq, h, if_false]
      exact ih

theorem dictGet?_set_ne {α : Type} (d : List (String × α)) (k k' : String)
    (v : α) (h : k' ≠ k) : dictGet? (dictSet d k v) k' = dictGet? d k' := by
  induction d with
  | nil => simp [dictSet, dictGet?, beq_iff_eq, Ne.symm h]
  | cons p rest ih =>
    by_cases hp : p.1 = k
    · subst hp
      simp [dictSet, dictGet?, beq_iff_eq, Ne.symm h]
    · by_cases hp' : p.1 = k'
      · simp [dictSet, dictGet?, beq_iff_eq, hp, hp', h]
      · simp only [dictSet, dictGet?, beq_iff_eq, hp, hp', if_false]
        exact ih

theorem dictGet?_append_of_isSome {α : Type} (d₁ d₂ : List (String × α))
    (k : String) (v : α) (h : dictGet? d₁ k = some v) :
    dictGet? (d₁ ++ d₂) k = some v := by
  induction d₁ with
  | nil => simp [dictGet?] at h
  | cons p rest ih =>
    by_cases hp : p.1 = k
    · simp [dictGet?, hp] at h ⊢
      exact h
    · simp only [dictGet?, beq_iff_eq, hp, if_false, List.cons_append] at h ⊢
      exact ih h

theorem dictGet?_append_of_none {α : Type} (d₁ d₂ : List (String × α))
    (k : String) (h : dictGet? d₁ k = none) :
    dictGet? (d₁ ++ d₂) k = dictGet? d₂ k := by
  induction d₁ with
  | nil => simp
  | cons p rest ih =>
    by_cases hp : p.1 = k
    · simp [dictGet?, hp] at h
    · simp only [dictGet?, beq_iff_eq, hp, if_false, List.cons_append] at h ⊢
      exact ih h

theorem mem_dictKeys_iff {α : Type} (d : List (String × α)) (k : String) :
    k ∈ dictKeys d ↔ (dictGet? d k).isSome := by
  induction d with
  | nil => simp [dictKeys, dictGet?]
  | cons p rest ih =>
    by_cases hp : p.1 = k
    · simp [dictKeys, dictGet?, hp]
    · have hne : k ≠ p.1 := fun hh => hp hh.symm
      simp only [dictKeys, List.map_cons, List.mem_cons, dictGet?, beq_iff_eq,
        hp, if_false]
      rw [or_iff_right hne]
      exact ih

theorem dictKeys_set_of_mem {α : Type} (d : List (String × α)) (k : String)
    (v : α) (h : (dictGet? d k).isSome) :
    dictKeys (dictSet d k v) = dictKeys d := by
  induction d with
  | nil => simp [dictGet?] at h
  | cons p rest ih =>
    by_cases hp : p.1 = k
    · simp [dictSet, dictKeys, hp]
    · simp only [dictGet?, beq_iff_eq, hp, if_false] at h
      simp only [dictSet, beq_iff_eq, hp, if_false, dictKeys, List.map_cons]
      rw [show List.map Prod.fst (dictSet rest k v) = dictKeys (dictSet rest k v) from rfl,
        ih h]
      rfl

theorem mem_dictKeys_set {α : Type} (d : List (String × α)) (k k' : String)
    (v : α) (h : k' ∈ dictKeys d) : k' ∈ dictKeys (dictSet d k v) := by
  rw [mem_dictKeys_iff] at h ⊢
  by_cases hk : k' = k
  · subst hk
    simp [dictGet?_set_self]
  · rwa [dictGet?_set_ne d k k' v hk]

/-! ### Refinement loop lemmas -/

theorem refineLoop_rounds_le (oracle : Nat → List Axiom → List Refined)
    (t : Nat) :
    ∀ (fuel : Nat) (axs : List Axiom) (n : Nat),
      (refineLoop oracle t fuel axs n).2 ≤ fuel
  | 0, _, _ => Nat.le_refl 0
  | fuel + 1, axs, n => by
    simp only [refineLoop]
    split
    · exact Nat.succ_le_succ (Nat.zero_le fuel)
    · exact Nat.succ_le_succ (refineLoop_rounds_le oracle t fuel _ (n + 1))

theorem refineLoop_final_ne_nil (oracle : Nat → List Axiom → List Refined)
    (t : Nat) :
    ∀ (fuel : Nat) (axs : List Axiom) (n : Nat),
      (refineLoop oracle t fuel axs n).1 ≠ [] →
      (refineLoop oracle t fuel axs n).2 = fuel
  | 0, _, _, _ => rfl
  | fuel + 1, axs, n, h => by
    simp only [refineLoop] at h ⊢
    split
    · rename_i he
      rw [he] at h
      simp only [refineLoop, he] at h
      exact absurd rfl h
    · rename_i he
      rw [if_neg he] at h
      exact congrArg Nat.succ (refineLoop_final_ne_nil oracle t fuel _ (n + 1) h)

/-! ### Claims C1, C2, C3 -/

/-- C2: applying a refinement for an id that is found in the registry
yields that axiom's entry with the new text and the iteration count
increased by exactly 1 (hence not decreased); an id that is not found
yields a new entry with iteration count 1; and within a round, every
surviving entry whose id is found in the pre-round registry carries
exactly the prior count plus 1, so counts never decrease while the
axiom survives. -/
theorem C2_apply_refinement_semantics (old : List Axiom) (r : Refined) :
    (∀ orig, old.find? (fun a => a.id == r.id) = some orig →
      applyRefinement old r = ⟨r.id, r.text, orig.iter_count + 1⟩ ∧
      orig.iter_count ≤ (applyRefinement old r).iter_count) ∧
    (old.find? (fun a => a.id == r.id) = none →
      applyRefinement old r = ⟨r.id, r.text, 1⟩) ∧
    (∀ (rs : List Refined) (t : Nat) (b : Axiom), b ∈ refinementRound old rs t →
      ∀ orig, old.find? (fun a => a.id == b.id) = some orig →
        b.iter_count = orig.iter_count + 1) := by
  refine ⟨?_, ?_, ?_⟩
  · intro orig h
    refine ⟨by simp [applyRefinement, h], ?_⟩
    simp [applyRefinement, h]
  · intro h
    simp [applyRefinement, h]
  · intro rs t b hb orig horig
    rw [refinementRound_eq_filter] at hb
    rcases List.mem_filter.mp hb with ⟨hbm, _⟩
    rcases List.mem_map.mp hbm with ⟨r', _, hr'⟩
    subst hr'
    have hid : (applyRefinement old r').id = r'.id := by
      unfold applyRefinement
      cases old.find? (fun a => a.id == r'.id) <;> rfl
    rw [hid] at horig
    simp [applyRefinement, horig]

/-- Witness for C2 at concrete inputs. -/
theorem C2_witness :
    applyRefinement [⟨"a", "t", 2⟩] ⟨"a", "u"⟩ = ⟨"a", "u", 3⟩ ∧
    applyRefinement [⟨"a", "t", 2⟩] ⟨"b", "v"⟩ = ⟨"b", "v", 1⟩ := by
  constructor
  · exact ((C2_apply_refinement_semantics [⟨"a", "t", 2⟩] ⟨"a", "u"⟩).1
      ⟨"a", "t", 2⟩ (by decide)).1
  · exact (C2_apply_refinement_semantics [⟨"a", "t", 2⟩] ⟨"b", "v"⟩).2.1
      (by decide)

/-- C3: after the retirement step the kept registry is exactly the
subset with iteration count strictly below the threshold, the removed
set is exactly the axioms with count at or above it, the size never
increases, and the in-line retirement of a refinement round coincides
with `retire_if_due` applied to the counted registry. -/
theorem C3_retire_exact (axs : List Axiom) (t : Nat) :
    (∀ a, a ∈ (retire_if_due axs t).1 ↔ a ∈ axs ∧ a.iter_count < t) ∧
    (∀ a, a ∈ (retire_if_due axs t).2 ↔ a ∈ axs ∧ t ≤ a.iter_count) ∧
    (retire_if_due axs t).1.length ≤ axs.length ∧
    ∀ (old : List Axiom) (rs : List Refined),
      refinementRound old rs t = (retire_if_due (updateCounts old rs) t).1 := by
  refine ⟨?_, ?_, ?_, ?_⟩
  · intro a
    simp [retire_if_due, List.mem_filter]
  · intro a
    simp [retire_if_due, List.mem_filter, Nat.not_lt]
  · exact List.length_filter_le _ _
  · intro old rs
    rw [refinementRound_eq_filter]
    rfl

/-- Witness for C3 at a concrete registry. -/
theorem C3_witness :
    (⟨"a", "t", 1⟩ : Axiom) ∈ (retire_if_due [⟨"a", "t", 1⟩, ⟨"b", "u", 3⟩] 3).1 ∧
    (⟨"b", "u", 3⟩ : Axiom) ∈ (retire_if_due [⟨"a", "t", 1⟩, ⟨"b", "u", 3⟩] 3).2 := by
  constructor
  · exact ((C3_retire_exact [⟨"a", "t", 1⟩, ⟨"b", "u", 3⟩] 3).1
      ⟨"a", "t", 1⟩).mpr ⟨by decide, by decide⟩
  · exact ((C3_retire_exact [⟨"a", "t", 1⟩, ⟨"b", "u", 3⟩] 3).2.1
      ⟨"b", "u", 3⟩).mpr ⟨by decide, by decide⟩

/-- C1 fails on the code: in the claimed scenario (A with count 0, B
with count 2, threshold 3, two rounds whose oracle result refines only
A) the final registry is `[A with count 2]` and in particular does not
contain B — axioms omitted from the refinement result are not retained. -/
theorem C1_counterexample :
    iterative_refinement (fun _ _ => [⟨"1", "a"⟩])
        [⟨"1", "a0", some 0⟩, ⟨"2", "b0", some 2⟩] 2 3
      = ([⟨"1", "a", 2⟩], 2) ∧
    "2" ∉ (iterative_refinement (fun _ _ => [⟨"1", "a"⟩])
        [⟨"1", "a0", some 0⟩, ⟨"2", "b0", some 2⟩] 2 3).1.map Axiom.id := by
  exact ⟨by decide, by decide⟩

/-- C1 (amended): every axiom surviving a refinement round has its id
among the ids of the parsed refinement result, so axioms whose ids do
not appear in the result are dropped from the registry; in the claimed
scenario the registry after two rounds holds exactly A with count 2. -/
theorem C1_omitted_axioms_dropped :
    (∀ (old : List Axiom) (rs : List Refined) (t : Nat) (a : Axiom),
        a ∈ refinementRound old rs t → a.id ∈ rs.map Refined.id) ∧
    iterative_refinement (fun _ _ => [⟨"1", "a"⟩])
        [⟨"1", "a0", some 0⟩, ⟨"2", "b0", some 2⟩] 2 3 = ([⟨"1", "a", 2⟩], 2) := by
  constructor
  · intro old rs t a ha
    rw [refinementRound_eq_filter] at ha
    rcases List.mem_filter.mp ha with ⟨ham, _⟩
    rcases List.mem_map.mp ham with ⟨r, hr, hra⟩
    subst hra
    have hid : (applyRefinement old r).id = r.id := by
      unfold applyRefinement
      cases old.find? (fun a => a.id == r.id) <;> rfl
    rw [hid]
    exact List.mem_map.mpr ⟨r, hr, rfl⟩
  · decide

/-- Witness for C1's amended statement at a concrete round. -/
theorem C1_witness :
    (⟨"1", "x", 1⟩ : Axiom) ∈ refinementRound [⟨"1", "x0", 0⟩] [⟨"1", "x"⟩] 3 ∧
    "1" ∈ ([⟨"1", "x"⟩] : List Refined).map Refined.id := by
  refine ⟨by decide, ?_⟩
  exact C1_omitted_axioms_dropped.1 [⟨"1", "x0", 0⟩] [⟨"1", "x"⟩] 3
    ⟨"1", "x", 1⟩ (by decide)

/-! ### Write loop lemmas -/

theorem writeRound_done_eq (em : EvidenceMap) (sk : List (String × String))
    (reply : String) (t : List (String × String) × String × Bool)
    (h : writeRound em sk reply = Except.ok t) :
    t.2.2 = (parse_write_response reply).2.2 := by
  simp only [writeRound] at h
  split at h
  · exact absurd h (by simp)
  · rename_i sk' ddEv heq
    cases h
    rfl

theorem writeLoop_rounds_le (em : EvidenceMap) (replies : Nat → String) :
    ∀ (fuel : Nat) (sk : List (String × String)) (n : Nat)
      (res : List (String × String) × Nat),
      writeLoop em replies fuel sk n = Except.ok res → res.2 ≤ fuel
  | 0, sk, n, res, h => by
    simp only [writeLoop] at h
    cases h
    exact Nat.le_refl 0
  | fuel + 1, sk, n, res, h => by
    simp only [writeLoop] at h
    split at h
    · exact absurd h (by simp)
    · rename_i sk' dd done heq
      split at h
      · cases h
        exact Nat.succ_le_succ (Nat.zero_le fuel)
      · split at h
        · exact absurd h (by simp)
        · rename_i sk'' m hrec
          cases h
          exact Nat.succ_le_succ
            (writeLoop_rounds_le em replies fuel sk' (n + 1) (sk'', m) hrec)

theorem writeLoop_never_done (em : EvidenceMap) (replies : Nat → String)
    (hnd : ∀ i, (parse_write_response (replies i)).2.2 = false) :
    ∀ (fuel : Nat) (sk : List (String × String)) (n : Nat)
      (res : List (String × String) × Nat),
      writeLoop em replies fuel sk n = Except.ok res → res.2 = fuel
  | 0, sk, n, res, h => by
    simp only [writeLoop] at h
    cases h
    rfl
  | fuel + 1, sk, n, res, h => by
    simp only [writeLoop] at h
    split at h
    · exact absurd h (by simp)
    · rename_i sk' dd done heq
      have hdone : done = false := by
        have := writeRound_done_eq em sk (replies n) (sk', dd, done) heq
        simpa [hnd n] using this
      subst hdone
      rw [if_neg (by simp)] at h
      split at h
      · exact absurd h (by simp)
      · rename_i sk'' m hrec
        cases h
        exact congrArg Nat.succ
          (writeLoop_never_done em replies hnd fuel sk' (n + 1) (sk'', m) hrec)

/-! ### Claim C7 -/

/-- C7: the refinement loop executes at most the configured round cap,
and when it stops before the cap the registry has become empty (so the
only early exit is emptiness); with an oracle stub that echoes the
registry and the default threshold 3 it runs exactly the default cap of
3 rounds.  The paper assembly loop executes at most its cap, runs
exactly the cap rounds whenever no reply sets the done flag, and with a
stub that never reports completion it runs exactly the default cap of
5 rounds. -/
theorem C7_loop_caps :
    (∀ (oracle : Nat → List Axiom → List Refined) (axs : List AxiomIn)
        (cap t : Nat), (iterative_refinement oracle axs cap t).2 ≤ cap) ∧
    (∀ (oracle : Nat → List Axiom → List Refined) (axs : List AxiomIn)
        (cap t : Nat), (iterative_refinement oracle axs cap t).1 ≠ [] →
        (iterative_refinement oracle axs cap t).2 = cap) ∧
    iterative_refinement (fun _ axs => axs.map (fun a => ⟨a.id, a.text⟩))
        [⟨"x", "t", none⟩] 3 3 = ([], 3) ∧
    (∀ (em : EvidenceMap) (replies : Nat → String) (cap : Nat)
        (sk : List (String × String)) (n : Nat)
        (res : List (String × String) × Nat),
        writeLoop em replies cap sk n = Except.ok res → res.2 ≤ cap) ∧
    (∀ (em : EvidenceMap) (replies : Nat → String) (cap : Nat)
        (sk : List (String × String)) (n : Nat)
        (res : List (String × String) × Nat),
        (∀ i, (parse_write_response (replies i)).2.2 = false) →
        writeLoop em replies cap sk n = Except.ok res → res.2 = cap) ∧
    write_paper [] (fun _ => "") 5 = Except.ok (composePaper initial_skeleton, 5) := by
  refine ⟨?_, ?_, ?_, ?_, ?_, ?_⟩
  · intro oracle axs cap t
    exact refineLoop_rounds_le oracle t cap _ 0
  · intro oracle axs cap t h
    exact refineLoop_final_ne_nil oracle t cap _ 0 h
  · decide
  · intro em replies cap sk n res h
    exact writeLoop_rounds_le em replies cap sk n res h
  · intro em replies cap sk n res hnd h
    exact writeLoop_never_done em replies hnd cap sk n res h
  · rfl

/-- Witness for C7: a concrete run hitting exactly the refinement cap,
and a concrete write loop with a never-done stub hitting exactly its
cap. -/
theorem C7_witness :
    (iterative_refinement (fun _ _ => [⟨"1", "a"⟩]) [⟨"1", "a0", none⟩] 3 9).2 = 3 ∧
    ((initial_skeleton, 2) : List (String × String) × Nat).2 = 2 := by
  constructor
  · exact C7_loop_caps.2.1 (fun _ _ => [⟨"1", "a"⟩]) [⟨"1", "a0", none⟩] 3 9
      (by decide)
  · exact C7_loop_caps.2.2.2.2.1 [] (fun _ => "") 2 initial_skeleton 0
      (initial_skeleton, 2) (fun _ => rfl) (by rfl)

/-! ### Claim C4 -/

theorem pyDictGet_builtinId (a : AxiomIn) :
    pyDictGet (axiomDict a) PyKey.builtinFunctionId
      = Except.error (PyError.keyError PyKey.builtinFunctionId) := rfl

theorem initEvidenceMappingFrom_cons_error (m : EvidenceMap) (a : AxiomIn)
    (rest : List AxiomIn) :
    initEvidenceMappingFrom m (a :: rest)
      = Except.error (PyError.keyError PyKey.builtinFunctionId) := by
  simp only [initEvidenceMappingFrom, pyDictGet_builtinId]

/-- C4: for every non-empty list of initial axiom texts (and any
documents, oracle replies and uuid supply), `iterative_research` raises
`KeyError` at the dict comprehension of line 95, which subscripts each
axiom dict with the builtin function `id` instead of the string "id";
the stage never returns normally when seeded with at least one axiom. -/
theorem C4_research_keyerror (texts : List String)
    (pdfs : List (String × List PdfSection)) (researchOracle : Nat → String)
    (refineOracle : Nat → List Axiom → List Refined) (uuids : Nat → String)
    (h : texts ≠ []) :
    iterative_research texts pdfs researchOracle refineOracle uuids
      = Except.error (PyError.keyError PyKey.builtinFunctionId) := by
  cases texts with
  | nil => exact absurd rfl h
  | cons t ts =>
    simp only [iterative_research, initEvidenceMapping, List.enum_cons,
      List.map_cons, initEvidenceMappingFrom_cons_error]

/-- Witness for C4: a single seeded axiom already triggers the KeyError. -/
theorem C4_witness :
    iterative_research ["a"] [] (fun _ => "") (fun _ _ => []) (fun _ => "u")
      = Except.error (PyError.keyError PyKey.builtinFunctionId) :=
  C4_research_keyerror ["a"] [] (fun _ => "") (fun _ _ => []) (fun _ => "u")
    (by decide)

/-! ### Evidence store lemmas -/

theorem dictGet?_append_single_ne {α : Type} (m : List (String × α))
    (k k' : String) (v : α) (h : k' ≠ k) :
    dictGet? (m ++ [(k, v)]) k' = dictGet? m k' := by
  cases h3 : dictGet? m k' with
  | some x => exact dictGet?_append_of_isSome m _ k' x h3
  | none =>
    rw [dictGet?_append_of_none m _ k' h3]
    simp [dictGet?, beq_iff_eq, Ne.symm h]

theorem recordEv_lookup_self (m : EvidenceMap) (k : String) (ev : Evidence) :
    dictGetD (recordEv m k ev) k [] = dictGetD m k [] ++ [ev] := by
  cases h : dictGet? m k with
  | some l =>
    simp only [recordEv, dictGetD, h, Option.isSome_some, if_true,
      Option.getD_some, dictGet?_set_self]
  | none =>
    have h2 : dictGet? (m ++ [(k, ([] : List Evidence))]) k = some [] := by
      rw [dictGet?_append_of_none m _ k h]
      simp [dictGet?]
    simp only [recordEv, dictGetD, h, Option.isSome_none, Bool.false_eq_true,
      if_false, h2, Option.getD_some, Option.getD_none, dictGet?_set_self,
      List.nil_append]

theorem recordEv_lookup_ne (m : EvidenceMap) (k : String) (ev : Evidence)
    (k' : String) (h : k' ≠ k) :
    dictGet? (recordEv m k ev) k' = dictGet? m k' := by
  cases hm : (dictGet? m k).isSome with
  | true =>
    simp only [recordEv, hm, if_true]
    exact dictGet?_set_ne _ _ _ _ h
  | false =>
    simp only [recordEv, hm, Bool.false_eq_true, if_false]
    rw [dictGet?_set_ne _ _ _ _ h]
    exact dictGet?_append_single_ne m k k' [] h

theorem recordEv_fold (k : String) :
    ∀ (evs : List Evidence) (m : EvidenceMap),
      dictGetD (evs.foldl (fun m' e => recordEv m' k e) m) k []
        = dictGetD m k [] ++ evs
  | [], m => by simp
  | e :: evs, m => by
    simp only [List.foldl_cons]
    rw [recordEv_fold k evs (recordEv m k e), recordEv_lookup_self]
    simp

theorem mem_dictKeys_recordEv (m : EvidenceMap) (k : String) (ev : Evidence)
    (k' : String) (h : k' ∈ dictKeys m) : k' ∈ dictKeys (recordEv m k ev) := by
  cases hm : (dictGet? m k).isSome with
  | true =>
    simp only [recordEv, hm, if_true]
    exact mem_dictKeys_set _ _ _ _ h
  | false =>
    simp only [recordEv, hm, Bool.false_eq_true, if_false]
    apply mem_dictKeys_set
    simp only [dictKeys, List.map_append]
    exact List.mem_append_left _ h

/-! ### processSummary unfolding lemmas -/

theorem processSummary_of_empty (uuids : Nat → String) (pdf title : String)
    (st : ResearchState) (s : Summary) (hk : s.axiom_key = "") :
    processSummary uuids pdf title st s = st := by
  simp only [processSummary]
  rw [if_neg (by simp [hk])]

theorem processSummary_evidence_eq (uuids : Nat → String) (pdf title : String)
    (st : ResearchState) (s : Summary) (hk : s.axiom_key ≠ "") :
    (processSummary uuids pdf title st s).evidence_mapping
      = recordEv st.evidence_mapping s.axiom_key
          ⟨pdf, s.sectionName, s.summary⟩ := by
  simp only [processSummary]
  rw [if_pos hk]

theorem processSummary_axioms_found (uuids : Nat → String) (pdf title : String)
    (st : ResearchState) (s : Summary) (hk : s.axiom_key ≠ "")
    (hf : st.initial_axioms.any (fun a => a.id == s.axiom_key) = true) :
    (processSummary uuids pdf title st s).initial_axioms
      = st.initial_axioms := by
  simp only [processSummary]
  rw [if_pos hk]
  simp [hf]

theorem processSummary_axioms_new (uuids : Nat → String) (pdf title : String)
    (st : ResearchState) (s : Summary) (hk : s.axiom_key ≠ "")
    (hf : st.initial_axioms.any (fun a => a.id == s.axiom_key) = false) :
    (processSummary uuids pdf title st s).initial_axioms
      = st.initial_axioms ++ [⟨uuids st.nextUuid, s.axiomText, none⟩] := by
  simp only [processSummary]
  rw [if_pos hk]
  simp [hf]

/-! ### Claims C8 and C10 -/

/-- C8: the evidence store is append-only.  A record operation appends
exactly one record at the end of the named axiom's list and leaves every
other key's list unchanged; N record calls for the same key append
exactly those N records in call order; the per-summary update of the
research loop only ever extends a key's list and never removes a key.
(The refinement and paper loops of the model only read the store: no
other operation writes it.) -/
theorem C8_evidence_append_only :
    (∀ (m : EvidenceMap) (k : String) (ev : Evidence),
        dictGetD (recordEv m k ev) k [] = dictGetD m k [] ++ [ev]) ∧
    (∀ (m : EvidenceMap) (k : String) (ev : Evidence) (k' : String), k' ≠ k →
        dictGetD (recordEv m k ev) k' [] = dictGetD m k' []) ∧
    (∀ (m : EvidenceMap) (k : String) (evs : List Evidence),
        dictGetD (evs.foldl (fun m' e => recordEv m' k e) m) k []
          = dictGetD m k [] ++ evs) ∧
    (∀ (uuids : Nat → String) (pdf title : String) (st : ResearchState)
        (s : Summary) (k : String),
        ∃ tail, dictGetD (processSummary uuids pdf title st s).evidence_mapping k []
          = dictGetD st.evidence_mapping k [] ++ tail) ∧
    (∀ (uuids : Nat → String) (pdf title : String) (st : ResearchState)
        (s : Summary) (k : String), k ∈ dictKeys st.evidence_mapping →
        k ∈ dictKeys (processSummary uuids pdf title st s).evidence_mapping) := by
  refine ⟨recordEv_lookup_self, ?_, fun m k evs => recordEv_fold k evs m, ?_, ?_⟩
  · intro m k ev k' h
    unfold dictGetD
    rw [recordEv_lookup_ne m k ev k' h]
  · intro uuids pdf title st s k
    by_cases hk : s.axiom_key = ""
    · exact ⟨[], by rw [processSummary_of_empty uuids pdf title st s hk,
        List.append_nil]⟩
    · rw [processSummary_evidence_eq uuids pdf title st s hk]
      by_cases hkk : k = s.axiom_key
      · subst hkk
        exact ⟨[⟨pdf, s.sectionName, s.summary⟩], recordEv_lookup_self _ _ _⟩
      · refine ⟨[], ?_⟩
        unfold dictGetD
        rw [recordEv_lookup_ne _ _ _ _ hkk, List.append_nil]
  · intro uuids pdf title st s k h
    by_cases hk : s.axiom_key = ""
    · rwa [processSummary_of_empty uuids pdf title st s hk]
    · rw [processSummary_evidence_eq uuids pdf title st s hk]
      exact mem_dictKeys_recordEv _ _ _ _ h

/-- Witness for C8 at a concrete store. -/
theorem C8_witness :
    dictGetD (recordEv [("a", [⟨"p", "s", "e0"⟩])] "a" ⟨"p", "s", "e1"⟩) "a" []
      = [⟨"p", "s", "e0"⟩, ⟨"p", "s", "e1"⟩] ∧
    dictGetD (recordEv [("a", [⟨"p", "s", "e0"⟩])] "b" ⟨"p", "s", "e1"⟩) "a" []
      = [⟨"p", "s", "e0"⟩] := by
  constructor
  · exact C8_evidence_append_only.1 [("a", [⟨"p", "s", "e0"⟩])] "a" ⟨"p", "s", "e1"⟩
  · exact C8_evidence_append_only.2.1 [("a", [⟨"p", "s", "e0"⟩])] "b"
      ⟨"p", "s", "e1"⟩ "a" (by decide)

theorem any_id_eq_mem (l : List AxiomIn) (k : String) :
    l.any (fun a => a.id == k) = true ↔ k ∈ l.map AxiomIn.id := by
  simp only [List.any_eq_true, List.mem_map, beq_iff_eq]

/-- C10: the evidence-gathering update never changes the text of an
existing axiom (line 146 compares instead of assigning) and never adds a
duplicate entry for a matched id — the axiom list is unchanged whenever
the summary's key matches an existing id; an empty key leaves the whole
state unchanged; and only a non-empty key matching no existing axiom
appends one new axiom (under a fresh uuid). -/
theorem C10_research_axiom_frame (uuids : Nat → String) (pdf title : String)
    (st : ResearchState) (s : Summary) :
    (s.axiom_key ∈ st.initial_axioms.map AxiomIn.id →
        (processSummary uuids pdf title st s).initial_axioms
          = st.initial_axioms) ∧
    (s.axiom_key = "" → processSummary uuids pdf title st s = st) ∧
    (s.axiom_key ≠ "" → s.axiom_key ∉ st.initial_axioms.map AxiomIn.id →
        (processSummary uuids pdf title st s).initial_axioms
          = st.initial_axioms ++ [⟨uuids st.nextUuid, s.axiomText, none⟩]) := by
  refine ⟨?_, processSummary_of_empty uuids pdf title st s, ?_⟩
  · intro hmem
    by_cases hk : s.axiom_key = ""
    · rw [processSummary_of_empty uuids pdf title st s hk]
    · exact processSummary_axioms_found uuids pdf title st s hk
        ((any_id_eq_mem _ _).mpr hmem)
  · intro hk hnmem
    have hfound : st.initial_axioms.any (fun a => a.id == s.axiom_key) = false := by
      rw [← Bool.not_eq_true]
      exact fun hc => hnmem ((any_id_eq_mem _ _).mp hc)
    exact processSummary_axioms_new uuids pdf title st s hk hfound

/-- Witness for C10 at a concrete state. -/
theorem C10_witness :
    (processSummary (fun n => toString n) "p" "t"
        ⟨[⟨"u0", "t0", none⟩], [], 1⟩ ⟨"u0", "S", "sum", "AX"⟩).initial_axioms
      = [⟨"u0", "t0", none⟩] ∧
    (processSummary (fun n => toString n) "p" "t"
        ⟨[⟨"u0", "t0", none⟩], [], 1⟩ ⟨"new", "S", "sum", "AX"⟩).initial_axioms
      = [⟨"u0", "t0", none⟩, ⟨"1", "AX", none⟩] := by
  constructor
  · exact (C10_research_axiom_frame (fun n => toString n) "p" "t"
      ⟨[⟨"u0", "t0", none⟩], [], 1⟩ ⟨"u0", "S", "sum", "AX"⟩).1 (by decide)
  · exact (C10_research_axiom_frame (fun n => toString n) "p" "t"
      ⟨[⟨"u0", "t0", none⟩], [], 1⟩ ⟨"new", "S", "sum", "AX"⟩).2.2
      (by decide) (by decide)

/-! ### Claims C5 and C6 -/

/-- C5: the paper-writing parser returns its empty defaults on the
empty (malformed) reply, but the probing-question parser does not
tolerate malformed input: on the empty reply its tagged-block regex
finds nothing and line 93 then reads the never-assigned local `root`,
so `NameError` escapes to the caller, contradicting the claim that no
parser raises past the caller. -/
theorem C5_parser_error_behaviour :
    parse_write_response "" = ([], [], false) ∧
    parse_llm_response "" = Except.error (PyError.nameError "root") :=
  ⟨rfl, rfl⟩

/-- C6 fails on the code: wrapping a well-formed refinement block in
leading prose changes the parse result (the block alone yields one
refined axiom, the wrapped reply yields the empty list), because
`parse_refinement_response` parses the whole reply rather than
extracting the first tagged block. -/
theorem C6_counterexample :
    parse_refinement_response ("Note: " ++ "<response><refinements><group><axiom key=\"a\" original=\"o\">t</axiom></group></refinements></response>")
      ≠ parse_refinement_response "<response><refinements><group><axiom key=\"a\" original=\"o\">t</axiom></group></refinements></response>" := by
  decide

/-- C6 (amended): only `parse_llm_response` extracts the first tagged
block before structural parsing (so prose around its block is
tolerated, shown at a concrete reply); `parse_refinement_response` and
`parse_write_response` run `ET.fromstring` on the entire reply, so any
reply that is not on the whole a well-formed document — in particular a
block wrapped in prose, as the concrete conjuncts show — produces the
empty or default result instead of the block's own parse. -/
theorem C6_only_llm_parse_extracts_block :
    (∀ s, fromstring s = none → parse_refinement_response s = []) ∧
    (∀ s, fromstring s = none → parse_write_response s = ([], [], false)) ∧
    fromstring ("Note: " ++ "<response><refinements><group><axiom key=\"a\" original=\"o\">t</axiom></group></refinements></response>") = none ∧
    parse_refinement_response "<response><refinements><group><axiom key=\"a\" original=\"o\">t</axiom></group></refinements></response>" = [⟨"a", "t"⟩] ∧
    parse_llm_response ("Note: " ++ "<response><questions><question>Q?</question></questions><done>false</done></response>" ++ " end")
      = parse_llm_response "<response><questions><question>Q?</question></questions><done>false</done></response>" := by
  refine ⟨?_, ?_, rfl, by decide, rfl⟩
  · intro s h
    simp only [parse_refinement_response, h]
  · intro s h
    simp only [parse_write_response, h]

/-- Witness for C6's amended statement on a malformed reply. -/
theorem C6_witness :
    parse_refinement_response "x" = [] ∧
    parse_write_response "x" = ([], [], false) := by
  constructor
  · exact C6_only_llm_parse_extracts_block.1 "x" rfl
  · exact C6_only_llm_parse_extracts_block.2.1 "x" rfl

/-! ### Skeleton-key lemmas for C9 -/

theorem mem_dictKeys_foldl_set (upd : List (String × String)) :
    ∀ (sk : List (String × String)) (k : String), k ∈ dictKeys sk →
      k ∈ dictKeys (upd.foldl (fun d p => dictSet d p.1 p.2) sk) := by
  induction upd with
  | nil => intro sk k h; exact h
  | cons p rest ih =>
    intro sk k h
    exact ih (dictSet sk p.1 p.2) k (mem_dictKeys_set sk p.1 k p.2 h)

theorem dictKeys_foldl_set_of_mem (upd : List (String × String)) :
    ∀ (sk : List (String × String)), (∀ p ∈ upd, p.1 ∈ dictKeys sk) →
      dictKeys (upd.foldl (fun d p => dictSet d p.1 p.2) sk) = dictKeys sk := by
  induction upd with
  | nil => intro sk _; rfl
  | cons p rest ih =>
    intro sk hmem
    have hp : p.1 ∈ dictKeys sk := hmem p (List.mem_cons_self _ _)
    have hset : dictKeys (dictSet sk p.1 p.2) = dictKeys sk :=
      dictKeys_set_of_mem sk p.1 p.2 ((mem_dictKeys_iff sk p.1).mp hp)
    rw [List.foldl_cons, ih (dictSet sk p.1 p.2)
      (fun q hq => by rw [hset]; exact hmem q (List.mem_cons_of_mem _ hq)), hset]

theorem applyDeepDives_keys (em : EvidenceMap) (dds : List (String × DeepDive)) :
    ∀ (sk : List (String × String)) (acc : String)
      (sk' : List (String × String)) (acc' : String),
      applyDeepDives em dds sk acc = Except.ok (sk', acc') →
      dictKeys sk' = dictKeys sk := by
  induction dds with
  | nil =>
    intro sk acc sk' acc' h
    simp only [applyDeepDives] at h
    cases h
    rfl
  | cons p rest ih =>
    intro sk acc sk' acc' h
    obtain ⟨sec, info⟩ := p
    simp only [applyDeepDives] at h
    cases hg : dictGet? sk sec with
    | none =>
      rw [hg] at h
      exact absurd h (by simp)
    | some cur =>
      rw [hg] at h
      rw [ih _ _ sk' acc' h]
      exact dictKeys_set_of_mem sk sec _ (by rw [hg]; rfl)

theorem applyDeepDives_ok (em : EvidenceMap) (dds : List (String × DeepDive)) :
    ∀ (sk : List (String × String)) (acc : String),
      (∀ p ∈ dds, p.1 ∈ dictKeys sk) →
      ∃ sk' acc', applyDeepDives em dds sk acc = Except.ok (sk', acc') ∧
        dictKeys sk' = dictKeys sk := by
  induction dds with
  | nil =>
    intro sk acc _
    exact ⟨sk, acc, rfl, rfl⟩
  | cons p rest ih =>
    intro sk acc hmem
    obtain ⟨sec, info⟩ := p
    have hsec : sec ∈ dictKeys sk := hmem (sec, info) (List.mem_cons_self _ _)
    have hsome := (mem_dictKeys_iff sk sec).mp hsec
    cases hg : dictGet? sk sec with
    | none => rw [hg] at hsome; exact absurd hsome (by simp)
    | some cur =>
      have hset : ∀ v, dictKeys (dictSet sk sec v) = dictKeys sk :=
        fun v => dictKeys_set_of_mem sk sec v hsome
      obtain ⟨sk', acc', hok, hk2⟩ := ih (dictSet sk sec
          (cur ++ "\n\nDeep Dive Details:\n" ++ info.text ++ "\nEvidence:\n"
            ++ evidenceForDD em sec info.axiom_key))
        (acc ++ "Deep Dive Request for Section " ++ sec ++ ": "
          ++ info.text ++ "\nEvidence:\n" ++ evidenceForDD em sec info.axiom_key
          ++ "\n\n")
        (fun q hq => by rw [hset]; exact hmem q (List.mem_cons_of_mem _ hq))
      refine ⟨sk', acc', ?_, by rw [hk2, hset]⟩
      simp only [applyDeepDives]
      rw [hg]
      exact hok

/-! ### Claim C9 -/

/-- C9 fails on the code: a reply whose updated_skeleton names the
section "Extra" makes the round add that key to the skeleton, so after
the round the section set is no longer the six fixed sections. -/
theorem C9_counterexample :
    writeRound [] initial_skeleton "<response><updated_skeleton><section name=\"Extra\">x</section></updated_skeleton></response>"
      = Except.ok (initial_skeleton ++ [("Extra", "x")], "", false) ∧
    dictKeys (initial_skeleton ++ [("Extra", "x")])
      ≠ ["Abstract", "Introduction", "Methods", "Results", "Discussion", "Conclusion"] := by
  exact ⟨rfl, by decide⟩

/-- C9 (amended): the skeleton starts with exactly the six fixed
sections; a successful round never removes a section name; and a round
preserves the section set exactly when every section named by the
reply's updated_skeleton and deep_dive parts already belongs to the
skeleton — an unknown name in updated_skeleton is added instead (and an
unknown deep-dive name raises KeyError), so the six-section invariant
holds only for replies confined to the current sections. -/
theorem C9_skeleton_sections (em : EvidenceMap) (sk : List (String × String))
    (reply : String) :
    dictKeys initial_skeleton
      = ["Abstract", "Introduction", "Methods", "Results", "Discussion",
         "Conclusion"] ∧
    (∀ (sk' : List (String × String)) (ddEv : String) (done : Bool),
        writeRound em sk reply = Except.ok (sk', ddEv, done) →
        ∀ k, k ∈ dictKeys sk → k ∈ dictKeys sk') ∧
    ((∀ name, name ∈ dictKeys (parse_write_response reply).1 →
        name ∈ dictKeys sk) →
     (∀ name, name ∈ dictKeys (parse_write_response reply).2.1 →
        name ∈ dictKeys sk) →
     ∃ (sk' : List (String × String)) (ddEv : String),
        writeRound em sk reply
          = Except.ok (sk', ddEv, (parse_write_response reply).2.2) ∧
        dictKeys sk' = dictKeys sk) := by
  refine ⟨rfl, ?_, ?_⟩
  · intro sk' ddEv done h k hk
    simp only [writeRound] at h
    cases hdd : applyDeepDives em (parse_write_response reply).2.1
        ((parse_write_response reply).1.foldl (fun d p => dictSet d p.1 p.2) sk)
        "" with
    | error e => rw [hdd] at h; exact absurd h (by simp)
    | ok pr =>
      rw [hdd] at h
      obtain ⟨sk₂, ddEv₂⟩ := pr
      cases h
      rw [applyDeepDives_keys em (parse_write_response reply).2.1 _ _ _ _ hdd]
      exact mem_dictKeys_foldl_set (parse_write_response reply).1 sk k hk
  · intro h1 h2
    have hfold : dictKeys
        ((parse_write_response reply).1.foldl (fun d p => dictSet d p.1 p.2) sk)
        = dictKeys sk :=
      dictKeys_foldl_set_of_mem (parse_write_response reply).1 sk
        (fun p hp => h1 p.1 (List.mem_map_of_mem _ hp))
    obtain ⟨sk', acc', hok, hkeys⟩ :=
      applyDeepDives_ok em (parse_write_response reply).2.1
        ((parse_write_response reply).1.foldl (fun d p => dictSet d p.1 p.2) sk)
        ""
        (fun p hp => by
          rw [hfold]
          exact h2 p.1 (List.mem_map_of_mem _ hp))
    refine ⟨sk', acc', ?_, by rw [hkeys, hfold]⟩
    simp only [writeRound]
    rw [hok]

/-- Witness for C9's amended statement: a reply confined to the six
sections keeps the section set unchanged. -/
theorem C9_witness :
    ∃ (sk' : List (String × String)) (ddEv : String),
      writeRound [] initial_skeleton "<response><updated_skeleton><section name=\"Results\">r</section></updated_skeleton></response>"
        = Except.ok (sk', ddEv,
            (parse_write_response "<response><updated_skeleton><section name=\"Results\">r</section></updated_skeleton></response>").2.2) ∧
      dictKeys sk' = dictKeys initial_skeleton := by
  apply (C9_skeleton_sections [] initial_skeleton
    "<response><updated_skeleton><section name=\"Results\">r</section></updated_skeleton></response>").2.2
  · intro name h
    rw [show (parse_write_response "<response><updated_skeleton><section name=\"Results\">r</section></updated_skeleton></response>").1
        = [("Results", "r")] from rfl] at h
    simp only [dictKeys, List.map_cons, List.map_nil, List.mem_singleton] at h
    subst h
    decide
  · intro name h
    rw [show (parse_write_response "<response><updated_skeleton><section name=\"Results\">r</section></updated_skeleton></response>").2.1
        = [] from rfl] at h
    simp [dictKeys] at h
